import Mathlib

/-!
# Verification of the Image-Editor transform pipeline (src/src/App.tsx)

The application delegates per-pixel photometric math to the browser canvas
(`ctx.filter` with a CSS filter list) and geometric placement to the canvas
current-transform matrix (`translate`/`rotate`/`scale` followed by
`drawImage`).  The embedding below models:

* the bitmap data model (rectangular pixel grid, four channels per pixel;
  channel values are integers, clamped to the 8-bit range [0,255] by the
  photometric operations);
* the canvas draw of `applyFilters` (App.tsx lines 32-55): the canvas is
  sized to the source image (lines 40-41), the current transform is
  translate(W/2,H/2) ∘ rotate(θ) ∘ scale(sx,sy), and the image is drawn at
  (-W/2,-H/2).  A drawn source point p lands at T·R·S·p, so an output pixel
  center is pulled back through S⁻¹·R⁻¹·T⁻¹ and point-sampled from the
  source grid; pulled-back points outside the source read the canvas's
  initial contents, transparent black.  On the 90° grid the canvas's real
  arithmetic lives entirely in half-pixel units, so coordinates are
  represented exactly as integers in doubled (half-pixel) units: the center
  of output column x is 2x+1-W doubled units from the canvas's vertical
  midline, and the source column containing a point at doubled coordinate t
  is ⌊t/2⌋;
* the four CSS filter functions of the filter string (lines 43-46), with
  per-channel math modelled from the spec (the math itself executes in the
  browser's filter implementation, not in this repository);
* the App component's state machine: the adjustment record and handler
  (lines 13-18, 71-73), rotation and flip state and their handlers
  (lines 20-21, 138, 145, 152), with the `useEffect` re-render of
  lines 57-59 folded into every step.

Rotation degrees produced by the app are always multiples of 90
(`setRotation(r => (r + 90) % 360)`, line 138), so the rotation matrix is
given exactly on that grid; other angles, unreachable from the UI, fall
through to the identity.
-/

/-- One pixel: red, green, blue, alpha channel values. -/
structure Pixel where
  r : ℤ
  g : ℤ
  b : ℤ
  a : ℤ
deriving DecidableEq, Repr

/-- The canvas's initial contents: transparent black. -/
def Pixel.transparent : Pixel := ⟨0, 0, 0, 0⟩

/-- A bitmap: a width × height grid of pixels.  The pixel function is total
on ℕ × ℕ; only arguments below `width`/`height` are meaningful. -/
structure Bitmap where
  width : ℕ
  height : ℕ
  pix : ℕ → ℕ → Pixel

/-- Bitmap identity: same dimensions and the same pixel at every in-range
coordinate (the pixel function may differ outside the grid, where a bitmap
carries no data). -/
def Bitmap.eqv (b₁ b₂ : Bitmap) : Prop :=
  b₁.width = b₂.width ∧ b₁.height = b₂.height ∧
    ∀ x < b₁.width, ∀ y < b₁.height, b₁.pix x y = b₂.pix x y

instance (b₁ b₂ : Bitmap) : Decidable (b₁.eqv b₂) := by
  unfold Bitmap.eqv; infer_instance

/-- All in-range channel values lie in the 8-bit range [0,255] (the spec's
"four 8-bit channels"). -/
def Bitmap.Valid (img : Bitmap) : Prop :=
  ∀ x < img.width, ∀ y < img.height,
    0 ≤ (img.pix x y).r ∧ (img.pix x y).r ≤ 255 ∧
    0 ≤ (img.pix x y).g ∧ (img.pix x y).g ≤ 255 ∧
    0 ≤ (img.pix x y).b ∧ (img.pix x y).b ≤ 255 ∧
    0 ≤ (img.pix x y).a ∧ (img.pix x y).a ≤ 255

instance (img : Bitmap) : Decidable img.Valid := by
  unfold Bitmap.Valid; infer_instance

/-- Inverse of the canvas rotation by `r` degrees (clockwise, y-axis down),
acting on doubled centered coordinates.
`ctx.rotate((rotation * Math.PI) / 180)` at App.tsx line 50; the app only
produces multiples of 90°, where sine and cosine are exactly 0 or ±1. -/
def rotInv (r : ℕ) (p : ℤ × ℤ) : ℤ × ℤ :=
  if r % 360 = 90 then (p.2, -p.1)
  else if r % 360 = 180 then (-p.1, -p.2)
  else if r % 360 = 270 then (-p.2, p.1)
  else p

/-- The canvas draw of App.tsx lines 40-53: the canvas is sized to the
source image (`canvas.width = img.width; canvas.height = img.height`), the
transform is translate(W/2,H/2) ∘ rotate ∘ scale(flipH ? -1 : 1, flipV ? -1 : 1),
and the image is drawn at (-W/2,-H/2).  Each output pixel center, in
doubled centered coordinates (2x+1-W, 2y+1-H), is pulled back through the
inverse scale and rotation, re-centered onto the source (doubled
coordinates 2u', 2v' with source index ⌊u'⌋ = u2/2 using floor division),
and point-sampled; pulled-back points outside the source read the canvas's
transparent black. -/
def codeTransform (img : Bitmap) (rot : ℕ) (fh fv : Bool) : Bitmap where
  width := img.width
  height := img.height
  pix := fun x y =>
    if x < img.width ∧ y < img.height then
      let q := rotInv rot
        (2 * (x : ℤ) + 1 - (img.width : ℤ), 2 * (y : ℤ) + 1 - (img.height : ℤ))
      let u2 : ℤ := (if fh then -q.1 else q.1) + (img.width : ℤ)
      let v2 : ℤ := (if fv then -q.2 else q.2) + (img.height : ℤ)
      let i : ℤ := u2 / 2
      let j : ℤ := v2 / 2
      if 0 ≤ i ∧ i < (img.width : ℤ) ∧ 0 ≤ j ∧ j < (img.height : ℤ) then
        img.pix i.toNat j.toNat
      else Pixel.transparent
    else Pixel.transparent

/-- Clamp a channel value to the 8-bit range [0,255]. -/
def clampCh (x : ℤ) : ℤ := max 0 (min 255 x)

/-- Modelled from the spec: the brightness filter of the filter string
(App.tsx line 43) — the math runs in the browser's CSS filter
implementation, not in this repository.  "Each color channel value is
scaled by brightness/100.  Result is clamped to [0,255]"; alpha passes
through unchanged. -/
def brightnessOp (amount : ℤ) (p : Pixel) : Pixel :=
  ⟨clampCh (p.r * amount / 100), clampCh (p.g * amount / 100),
   clampCh (p.b * amount / 100), p.a⟩

/-- Modelled from the spec: the contrast filter of the filter string
(App.tsx line 44) — the math runs in the browser, not in this repository.
"Each color channel value is remapped by 128 + (value - 128) * (contrast/100),
clamped to [0,255]"; alpha passes through unchanged. -/
def contrastOp (amount : ℤ) (p : Pixel) : Pixel :=
  ⟨clampCh (128 + (p.r - 128) * amount / 100),
   clampCh (128 + (p.g - 128) * amount / 100),
   clampCh (128 + (p.b - 128) * amount / 100), p.a⟩

/-- Modelled from the spec: the luminance `L = 0.299R + 0.587G + 0.114B`
used by the saturate filter. -/
def luminance (p : Pixel) : ℤ := (299 * p.r + 587 * p.g + 114 * p.b) / 1000

/-- Modelled from the spec: the saturate filter of the filter string
(App.tsx line 45) — the math runs in the browser, not in this repository.
"Blend each channel toward L using factor saturation/100", clamped to
[0,255]; alpha passes through unchanged. -/
def saturateOp (amount : ℤ) (p : Pixel) : Pixel :=
  let L := luminance p
  ⟨clampCh (L + (p.r - L) * amount / 100),
   clampCh (L + (p.g - L) * amount / 100),
   clampCh (L + (p.b - L) * amount / 100), p.a⟩

/-- Apply a per-pixel color map everywhere on the grid. -/
def Bitmap.mapPixels (f : Pixel → Pixel) (img : Bitmap) : Bitmap :=
  { img with pix := fun x y => f (img.pix x y) }

/-- Clamped (repeat-edge) sampling index for the blur neighborhood. -/
def clampIdx (n : ℕ) (i : ℤ) : ℕ := if i < 0 then 0 else min i.toNat (n - 1)

/-- Sum of one channel over the (2·rad+1)² blur window around (x,y), with
repeat-edge sampling. -/
def blurSum (img : Bitmap) (rad x y : ℕ) (ch : Pixel → ℤ) : ℤ :=
  ∑ i ∈ Finset.range (2 * rad + 1), ∑ j ∈ Finset.range (2 * rad + 1),
    ch (img.pix (clampIdx img.width ((x : ℤ) + i - rad))
                (clampIdx img.height ((y : ℤ) + j - rad)))

/-- Modelled from the spec: the blur filter of the filter string
(App.tsx line 46) — the math runs in the browser, not in this repository.
"A spatial box/Gaussian-style blur with radius proportional to the blur
parameter (0 = identity, no neighborhood sampling)": radius 0 (or below)
short-circuits to the identity; otherwise each color channel is the
box average over the clamped-edge window; alpha passes through unchanged. -/
def blurOp (radius : ℤ) (img : Bitmap) : Bitmap :=
  if radius ≤ 0 then img
  else
    let rad := radius.toNat
    let area : ℤ := (2 * rad + 1) * (2 * rad + 1)
    { img with
      pix := fun x y =>
        ⟨blurSum img rad x y Pixel.r / area,
         blurSum img rad x y Pixel.g / area,
         blurSum img rad x y Pixel.b / area,
         (img.pix x y).a⟩ }

/-- The adjustment record of the App component (App.tsx lines 4-9). -/
structure Adjustments where
  brightness : ℤ
  contrast : ℤ
  saturation : ℤ
  blur : ℤ
deriving DecidableEq, Repr

/-- One CSS filter function of the filter string. -/
inductive FilterFn where
  | brightness (amount : ℤ)
  | contrast (amount : ℤ)
  | saturate (amount : ℤ)
  | blur (radius : ℤ)

/-- The filter list built by `applyFilters` (App.tsx lines 43-46):
`brightness(...) contrast(...) saturate(...) blur(...)`. -/
def filterList (adj : Adjustments) : List FilterFn :=
  [.brightness adj.brightness, .contrast adj.contrast,
   .saturate adj.saturation, .blur adj.blur]

/-- Semantics of one CSS filter function on a bitmap. -/
def applyFilterFn : FilterFn → Bitmap → Bitmap
  | .brightness amount => Bitmap.mapPixels (brightnessOp amount)
  | .contrast amount => Bitmap.mapPixels (contrastOp amount)
  | .saturate amount => Bitmap.mapPixels (saturateOp amount)
  | .blur radius => blurOp radius

/-- A CSS filter list is applied left to right, each function consuming the
previous one's output. -/
def applyFilterList (fs : List FilterFn) (img : Bitmap) : Bitmap :=
  fs.foldl (fun acc f => applyFilterFn f acc) img

/-- The adjustment stage: `ctx.filter = ...` of App.tsx lines 43-46 applied
to the drawn source image. -/
def applyAdjustments (adj : Adjustments) (img : Bitmap) : Bitmap :=
  applyFilterList (filterList adj) img

/-- The full canvas draw of `applyFilters` (App.tsx lines 32-55): the
filter string is set before `drawImage`, so the filter chain applies to the
source image and the transformed result lands on the canvas. -/
def applyFilters (adj : Adjustments) (rot : ℕ) (fh fv : Bool)
    (img : Bitmap) : Bitmap :=
  codeTransform (applyAdjustments adj img) rot fh fv

/-- The flip state of the App component (App.tsx line 21). -/
structure FlipState where
  horizontal : Bool
  vertical : Bool
deriving DecidableEq, Repr

/-- One key of the adjustment record, as passed to `handleAdjustment`. -/
inductive AdjKey where
  | brightness
  | contrast
  | saturation
  | blur
deriving DecidableEq, Repr

/-- `handleAdjustment` (App.tsx lines 71-73):
`setAdjustments(prev => ({ ...prev, [name]: value }))` — one field replaced,
the rest spread from the previous record. -/
def updateAdjustments (adj : Adjustments) (name : AdjKey) (value : ℤ) :
    Adjustments :=
  match name with
  | .brightness => { adj with brightness := value }
  | .contrast => { adj with contrast := value }
  | .saturation => { adj with saturation := value }
  | .blur => { adj with blur := value }

/-- The App component's state (App.tsx lines 12-21): the uploaded image,
the adjustment record, rotation degrees, flip flags, and the canvas
contents. -/
structure AppState where
  image : Option Bitmap
  adjustments : Adjustments
  rotation : ℕ
  flip : FlipState
  canvas : Option Bitmap

/-- Initial state (App.tsx lines 12-21): no image, adjustments
{100,100,100,0}, rotation 0, no flips, empty canvas. -/
def initialState : AppState :=
  { image := none
    adjustments := ⟨100, 100, 100, 0⟩
    rotation := 0
    flip := ⟨false, false⟩
    canvas := none }

/-- One user event on the App component. -/
inductive UserAction where
  | upload (img : Bitmap)
  | adjust (name : AdjKey) (value : ℤ)
  | rotate
  | flipH
  | flipV

/-- The `useEffect` of App.tsx lines 57-59: after every state change
`applyFilters` redraws the canvas from the uploaded image and the current
parameters; with no image it returns without drawing (line 35). -/
def renderCanvas (s : AppState) : AppState :=
  match s.image with
  | none => s
  | some img =>
      { s with canvas := some (applyFilters s.adjustments s.rotation
          s.flip.horizontal s.flip.vertical img) }

/-- One step of the App state machine: the event handler
(upload: lines 23-30; sliders: lines 71-73, 126; rotate: line 138;
flips: lines 145, 152) followed by the `useEffect` re-render. -/
def step (s : AppState) (act : UserAction) : AppState :=
  renderCanvas <|
    match act with
    | .upload img => { s with image := some img }
    | .adjust name value =>
        { s with adjustments := updateAdjustments s.adjustments name value }
    | .rotate => { s with rotation := (s.rotation + 90) % 360 }
    | .flipH => { s with flip := { s.flip with horizontal := !s.flip.horizontal } }
    | .flipV => { s with flip := { s.flip with vertical := !s.flip.vertical } }

/-- Run the app from its initial state through a list of user events. -/
def run (acts : List UserAction) : AppState :=
  acts.foldl step initialState

/-!
## Reference definitions from the spec's words (for refinement comparison)

The spec's Transform Stage (§4.2) gives explicit pixel formulas for
rotation and flips and mandates the order rotation, then horizontal flip,
then vertical flip.  These definitions follow the spec's words, to be
compared against `codeTransform` above.
-/

/-- Modelled from the spec: rotation by 90°k as an exact pixel permutation
with swapped dimensions for k odd (§4.2): k=1: output(x,y) =
input(y, height-1-x); k=2: output(x,y) = input(width-1-x, height-1-y);
k=3: output(x,y) = input(width-1-y, x). -/
def specRotate (r : ℕ) (img : Bitmap) : Bitmap :=
  if r % 360 = 90 then
    ⟨img.height, img.width, fun x y => img.pix y (img.height - 1 - x)⟩
  else if r % 360 = 180 then
    ⟨img.width, img.height,
      fun x y => img.pix (img.width - 1 - x) (img.height - 1 - y)⟩
  else if r % 360 = 270 then
    ⟨img.height, img.width, fun x y => img.pix (img.width - 1 - y) x⟩
  else img

/-- Modelled from the spec: horizontal flip, output(x,y) =
input(width-1-x, y) (§4.2), applied when the flag is set. -/
def specFlipH (flag : Bool) (img : Bitmap) : Bitmap :=
  if flag then ⟨img.width, img.height, fun x y => img.pix (img.width - 1 - x) y⟩
  else img

/-- Modelled from the spec: vertical flip, output(x,y) =
input(x, height-1-y) (§4.2), applied when the flag is set. -/
def specFlipV (flag : Bool) (img : Bitmap) : Bitmap :=
  if flag then ⟨img.width, img.height, fun x y => img.pix x (img.height - 1 - y)⟩
  else img

/-- Modelled from the spec: the Transform Stage order of §4.2 — rotation
first, then horizontal flip, then vertical flip. -/
def specRotateThenFlip (rot : ℕ) (fh fv : Bool) (img : Bitmap) : Bitmap :=
  specFlipV fv (specFlipH fh (specRotate rot img))

/-- The opposite order the spec warns about (§8, order sensitivity):
flips first, then rotation. -/
def specFlipThenRotate (rot : ℕ) (fh fv : Bool) (img : Bitmap) : Bitmap :=
  specRotate rot (specFlipV fv (specFlipH fh img))

/-!
## Concrete bitmaps used by witnesses and counterexamples
-/

/-- A 2×2 bitmap with four distinct pixels. -/
def bmpTest2x2 : Bitmap where
  width := 2
  height := 2
  pix := fun x y => ⟨x, y, 0, 255⟩

/-- A 2×1 (landscape, non-square) bitmap with opaque pixels. -/
def bmpTest2x1 : Bitmap where
  width := 2
  height := 1
  pix := fun _ _ => ⟨10, 20, 30, 255⟩

/-- A 1×1 bitmap with one mid-range pixel. -/
def bmpTest1x1 : Bitmap where
  width := 1
  height := 1
  pix := fun _ _ => ⟨100, 50, 25, 255⟩

/-!
## Helper lemmas
-/

theorem clampCh_of_mem (x : ℤ) (h0 : 0 ≤ x) (h1 : x ≤ 255) : clampCh x = x := by
  unfold clampCh; omega

theorem brightnessOp_100 (p : Pixel) (h0 : 0 ≤ p.r) (h1 : p.r ≤ 255)
    (h2 : 0 ≤ p.g) (h3 : p.g ≤ 255) (h4 : 0 ≤ p.b) (h5 : p.b ≤ 255) :
    brightnessOp 100 p = p := by
  obtain ⟨r, g, b, a⟩ := p
  simp only [brightnessOp, clampCh, Pixel.mk.injEq] at *
  refine ⟨by omega, by omega, by omega, trivial⟩

theorem contrastOp_100 (p : Pixel) (h0 : 0 ≤ p.r) (h1 : p.r ≤ 255)
    (h2 : 0 ≤ p.g) (h3 : p.g ≤ 255) (h4 : 0 ≤ p.b) (h5 : p.b ≤ 255) :
    contrastOp 100 p = p := by
  obtain ⟨r, g, b, a⟩ := p
  simp only [contrastOp, clampCh, Pixel.mk.injEq] at *
  refine ⟨by omega, by omega, by omega, trivial⟩

theorem saturateOp_100 (p : Pixel) (h0 : 0 ≤ p.r) (h1 : p.r ≤ 255)
    (h2 : 0 ≤ p.g) (h3 : p.g ≤ 255) (h4 : 0 ≤ p.b) (h5 : p.b ≤ 255) :
    saturateOp 100 p = p := by
  obtain ⟨r, g, b, a⟩ := p
  simp only [saturateOp, clampCh, Pixel.mk.injEq] at *
  refine ⟨by omega, by omega, by omega, trivial⟩

theorem blurOp_nonpos (radius : ℤ) (img : Bitmap) (h : radius ≤ 0) :
    blurOp radius img = img := by
  unfold blurOp; simp [h]

theorem blurOp_width (radius : ℤ) (img : Bitmap) :
    (blurOp radius img).width = img.width := by
  unfold blurOp; split <;> rfl

theorem blurOp_height (radius : ℤ) (img : Bitmap) :
    (blurOp radius img).height = img.height := by
  unfold blurOp; split <;> rfl

theorem applyAdjustments_width (adj : Adjustments) (img : Bitmap) :
    (applyAdjustments adj img).width = img.width := by
  have h : applyAdjustments adj img =
      blurOp adj.blur
        (Bitmap.mapPixels (saturateOp adj.saturation)
          (Bitmap.mapPixels (contrastOp adj.contrast)
            (Bitmap.mapPixels (brightnessOp adj.brightness) img))) := rfl
  rw [h, blurOp_width]; rfl

theorem applyAdjustments_height (adj : Adjustments) (img : Bitmap) :
    (applyAdjustments adj img).height = img.height := by
  have h : applyAdjustments adj img =
      blurOp adj.blur
        (Bitmap.mapPixels (saturateOp adj.saturation)
          (Bitmap.mapPixels (contrastOp adj.contrast)
            (Bitmap.mapPixels (brightnessOp adj.brightness) img))) := rfl
  rw [h, blurOp_height]; rfl

theorem ct_pix_rot0 (img : Bitmap) (fh fv : Bool) (x y : ℕ)
    (hx : x < img.width) (hy : y < img.height) :
    (codeTransform img 0 fh fv).pix x y =
      img.pix (if fh then img.width - 1 - x else x)
              (if fv then img.height - 1 - y else y) := by
  cases fh <;> cases fv <;>
  · simp only [codeTransform, rotInv]
    norm_num [hx, hy]
    split
    case isTrue h => congr 2 <;> omega
    case isFalse h => exfalso; omega

theorem ct_pix_rot90 (img : Bitmap) (hsq : img.width = img.height)
    (fh fv : Bool) (x y : ℕ) (hx : x < img.width) (hy : y < img.height) :
    (codeTransform img 90 fh fv).pix x y =
      img.pix (if fh then img.height - 1 - y else y)
              (if fv then x else img.width - 1 - x) := by
  cases fh <;> cases fv <;>
  · simp only [codeTransform, rotInv]
    norm_num [hx, hy]
    split
    case isTrue h => congr 2 <;> omega
    case isFalse h => exfalso; omega

theorem ct_pix_rot180 (img : Bitmap) (fh fv : Bool) (x y : ℕ)
    (hx : x < img.width) (hy : y < img.height) :
    (codeTransform img 180 fh fv).pix x y =
      img.pix (if fh then x else img.width - 1 - x)
              (if fv then y else img.height - 1 - y) := by
  cases fh <;> cases fv <;>
  · simp only [codeTransform, rotInv]
    norm_num [hx, hy]
    split
    case isTrue h => congr 2 <;> omega
    case isFalse h => exfalso; omega

theorem ct_pix_rot270 (img : Bitmap) (hsq : img.width = img.height)
    (fh fv : Bool) (x y : ℕ) (hx : x < img.width) (hy : y < img.height) :
    (codeTransform img 270 fh fv).pix x y =
      img.pix (if fh then y else img.height - 1 - y)
              (if fv then img.width - 1 - x else x) := by
  cases fh <;> cases fv <;>
  · simp only [codeTransform, rotInv]
    norm_num [hx, hy]
    split
    case isTrue h => congr 2 <;> omega
    case isFalse h => exfalso; omega

theorem renderCanvas_rotation (s : AppState) :
    (renderCanvas s).rotation = s.rotation := by
  unfold renderCanvas; cases h : s.image <;> rfl

theorem step_rot_ok (s : AppState) (act : UserAction)
    (h : s.rotation = 0 ∨ s.rotation = 90 ∨ s.rotation = 180 ∨ s.rotation = 270) :
    (step s act).rotation = 0 ∨ (step s act).rotation = 90 ∨
      (step s act).rotation = 180 ∨ (step s act).rotation = 270 := by
  cases act <;> simp only [step, renderCanvas_rotation] <;> first
  | exact h
  | omega

theorem run_rot_ok_aux (acts : List UserAction) : ∀ s : AppState,
    (s.rotation = 0 ∨ s.rotation = 90 ∨ s.rotation = 180 ∨ s.rotation = 270) →
    ((acts.foldl step s).rotation = 0 ∨ (acts.foldl step s).rotation = 90 ∨
      (acts.foldl step s).rotation = 180 ∨ (acts.foldl step s).rotation = 270) := by
  induction acts with
  | nil => exact fun s h => h
  | cons a as ih =>
      intro s h
      rw [List.foldl_cons]
      exact ih _ (step_rot_ok s a h)

theorem renderCanvas_inv (s : AppState) : ∀ img,
    (renderCanvas s).image = some img →
    (renderCanvas s).canvas = some (applyFilters (renderCanvas s).adjustments
      (renderCanvas s).rotation (renderCanvas s).flip.horizontal
      (renderCanvas s).flip.vertical img) := by
  intro img h
  unfold renderCanvas at h ⊢
  cases hi : s.image with
  | none =>
      rw [hi] at h
      dsimp only at h
      rw [hi] at h
      exact Option.noConfusion h
  | some i =>
      rw [hi] at h
      dsimp only at h ⊢
      obtain rfl := Option.some.inj h
      rfl

theorem step_inv (s : AppState) (act : UserAction) : ∀ img,
    (step s act).image = some img →
    (step s act).canvas = some (applyFilters (step s act).adjustments
      (step s act).rotation (step s act).flip.horizontal
      (step s act).flip.vertical img) := by
  unfold step
  exact renderCanvas_inv _

theorem run_inv_aux (acts : List UserAction) : ∀ s : AppState,
    (∀ img, s.image = some img →
      s.canvas = some (applyFilters s.adjustments s.rotation
        s.flip.horizontal s.flip.vertical img)) →
    (∀ img, (acts.foldl step s).image = some img →
      (acts.foldl step s).canvas = some (applyFilters
        (acts.foldl step s).adjustments (acts.foldl step s).rotation
        (acts.foldl step s).flip.horizontal
        (acts.foldl step s).flip.vertical img)) := by
  induction acts with
  | nil => exact fun s h => h
  | cons a as ih =>
      intro s _
      rw [List.foldl_cons]
      exact ih _ (step_inv s a)

/-!
## Claim theorems
-/

/-- C1: the claim says a 90° or 270° rotation produces an H×W output.  The
code (App.tsx lines 40-41) sizes the canvas to the source for every
rotation: for the 2×1 source rotated 90° the output stays 2×1 — not the
claimed 1×2 — and the rotated image is clipped, leaving output pixel (0,0)
transparent although every source pixel is opaque. -/
theorem C1_rot90_dims_unswapped :
    (codeTransform bmpTest2x1 90 false false).width = 2 ∧
    (codeTransform bmpTest2x1 90 false false).height = 1 ∧
    ¬ ((codeTransform bmpTest2x1 90 false false).width = 1 ∧
       (codeTransform bmpTest2x1 90 false false).height = 2) ∧
    (codeTransform bmpTest2x1 90 false false).pix 0 0 = Pixel.transparent :=
  ⟨rfl, rfl, by decide, by decide⟩

/-- C2 counterexample: on a square 2×2 bitmap with rotation 90° and a
horizontal flip, the canvas draw does not equal the spec's
rotate-then-flip semantics. -/
theorem C2_rotate_then_flip_fails :
    ¬ Bitmap.eqv (codeTransform bmpTest2x2 90 true false)
        (specRotateThenFlip 90 true false bmpTest2x2) := by decide

/-- C2 amended: the canvas transform order is the reverse of the claim.
`ctx.rotate` is issued before `ctx.scale` (App.tsx lines 50-51), and canvas
transforms apply to the drawn image in reverse order of issue, so the image
is flipped first (horizontal, then vertical, in the source frame) and the
flipped image is rotated.  On square bitmaps (where the unswapped canvas
dimensions of lines 40-41 cause no clipping) the draw equals
flip-then-rotate exactly, for every rotation the UI can produce and every
flip combination. -/
theorem C2_flip_then_rotate (img : Bitmap) (hsq : img.width = img.height)
    (rot : ℕ) (hr : rot = 0 ∨ rot = 90 ∨ rot = 180 ∨ rot = 270)
    (fh fv : Bool) :
    Bitmap.eqv (codeTransform img rot fh fv)
      (specFlipThenRotate rot fh fv img) := by
  have hdim : ∀ im : Bitmap,
      (specFlipV fv (specFlipH fh im)).width = im.width ∧
      (specFlipV fv (specFlipH fh im)).height = im.height := by
    intro im
    cases fh <;> cases fv <;> simp [specFlipH, specFlipV]
  obtain rfl | rfl | rfl | rfl := hr
  · refine ⟨?_, ?_, ?_⟩
    · simp [codeTransform, specFlipThenRotate, specRotate, (hdim img).1]
    · simp [codeTransform, specFlipThenRotate, specRotate, (hdim img).2]
    · intro x hx y hy
      simp only [codeTransform] at hx hy
      rw [ct_pix_rot0 img fh fv x y hx hy]
      cases fh <;> cases fv <;>
        simp [specFlipThenRotate, specRotate, specFlipH, specFlipV]
  · refine ⟨?_, ?_, ?_⟩
    · simp [codeTransform, specFlipThenRotate, specRotate, (hdim img).2, hsq]
    · simp [codeTransform, specFlipThenRotate, specRotate, (hdim img).1, hsq]
    · intro x hx y hy
      simp only [codeTransform] at hx hy
      rw [ct_pix_rot90 img hsq fh fv x y hx hy]
      cases fh <;> cases fv <;>
        simp [specFlipThenRotate, specRotate, specFlipH, specFlipV] <;>
        congr 2 <;> omega
  · refine ⟨?_, ?_, ?_⟩
    · simp [codeTransform, specFlipThenRotate, specRotate, (hdim img).1]
    · simp [codeTransform, specFlipThenRotate, specRotate, (hdim img).2]
    · intro x hx y hy
      simp only [codeTransform] at hx hy
      rw [ct_pix_rot180 img fh fv x y hx hy]
      cases fh <;> cases fv <;>
        simp [specFlipThenRotate, specRotate, specFlipH, specFlipV] <;>
        congr 2 <;> omega
  · refine ⟨?_, ?_, ?_⟩
    · simp [codeTransform, specFlipThenRotate, specRotate, (hdim img).2, hsq]
    · simp [codeTransform, specFlipThenRotate, specRotate, (hdim img).1, hsq]
    · intro x hx y hy
      simp only [codeTransform] at hx hy
      rw [ct_pix_rot270 img hsq fh fv x y hx hy]
      cases fh <;> cases fv <;>
        simp [specFlipThenRotate, specRotate, specFlipH, specFlipV] <;>
        congr 2 <;> omega

/-- C2 witness: the amended statement instantiated at the square 2×2 bitmap
with rotation 90° and a horizontal flip. -/
theorem C2_flip_then_rotate_witness :
    (bmpTest2x2.width = bmpTest2x2.height ∧
      ((90 : ℕ) = 0 ∨ (90 : ℕ) = 90 ∨ (90 : ℕ) = 180 ∨ (90 : ℕ) = 270)) ∧
    Bitmap.eqv (codeTransform bmpTest2x2 90 true false)
      (specFlipThenRotate 90 true false bmpTest2x2) :=
  ⟨⟨rfl, by norm_num⟩,
    C2_flip_then_rotate bmpTest2x2 rfl 90 (by norm_num) true false⟩

/-- C3 counterexample: with brightness 300 — outside [0,200] — the
adjustment stage does not fail: it processes the 1×1 bitmap normally,
scaling each channel by 3 and silently clamping the red channel at 255. -/
theorem C3_out_of_range_processed :
    Bitmap.eqv (applyAdjustments ⟨300, 100, 100, 0⟩ bmpTest1x1)
      ⟨1, 1, fun _ _ => ⟨255, 150, 75, 255⟩⟩ := by decide

/-- C3 amended: `applyFilters` performs no range validation at all — there
is no InvalidParameter error path; every parameter value, in or out of
range, is handed to the filter chain, which produces an ordinary output
bitmap of the source's dimensions (range limiting exists only in the
slider bounds of App.tsx lines 123-124). -/
theorem C3_no_validation (adj : Adjustments) (img : Bitmap) :
    (applyAdjustments adj img).width = img.width ∧
    (applyAdjustments adj img).height = img.height :=
  ⟨applyAdjustments_width adj img, applyAdjustments_height adj img⟩

/-- C4: the filter string of App.tsx lines 43-46 lists
`brightness contrast saturate blur`, and a CSS filter list applies in
order, so the adjustment stage is blur ∘ saturate ∘ contrast ∘ brightness
applied to the source. -/
theorem C4_filter_order (adj : Adjustments) (img : Bitmap) :
    applyAdjustments adj img =
      blurOp adj.blur
        (Bitmap.mapPixels (saturateOp adj.saturation)
          (Bitmap.mapPixels (contrastOp adj.contrast)
            (Bitmap.mapPixels (brightnessOp adj.brightness) img))) := rfl

/-- C5: with the default parameters — brightness, contrast, saturation 100,
blur 0, rotation 0, no flips — the pipeline returns the source bitmap
identically, for every bitmap whose channels are in the 8-bit range. -/
theorem C5_identity_at_defaults (img : Bitmap) (hv : img.Valid) :
    Bitmap.eqv (applyFilters ⟨100, 100, 100, 0⟩ 0 false false img) img := by
  have hadj : applyAdjustments ⟨100, 100, 100, 0⟩ img =
      Bitmap.mapPixels (saturateOp 100)
        (Bitmap.mapPixels (contrastOp 100)
          (Bitmap.mapPixels (brightnessOp 100) img)) :=
    blurOp_nonpos 0 _ le_rfl
  refine ⟨?_, ?_, ?_⟩
  · show (applyAdjustments ⟨100, 100, 100, 0⟩ img).width = img.width
    exact applyAdjustments_width _ img
  · show (applyAdjustments ⟨100, 100, 100, 0⟩ img).height = img.height
    exact applyAdjustments_height _ img
  · intro x hx y hy
    have hx' : x < img.width := by
      have := applyAdjustments_width ⟨100, 100, 100, 0⟩ img
      simpa [codeTransform, this] using hx
    have hy' : y < img.height := by
      have := applyAdjustments_height ⟨100, 100, 100, 0⟩ img
      simpa [codeTransform, this] using hy
    show (codeTransform (applyAdjustments ⟨100, 100, 100, 0⟩ img)
        0 false false).pix x y = img.pix x y
    have hax : x < (applyAdjustments ⟨100, 100, 100, 0⟩ img).width := by
      rw [applyAdjustments_width]; exact hx'
    have hay : y < (applyAdjustments ⟨100, 100, 100, 0⟩ img).height := by
      rw [applyAdjustments_height]; exact hy'
    rw [ct_pix_rot0 _ false false x y hax hay]
    simp only [if_neg Bool.false_ne_true, Bool.false_eq_true, if_false]
    rw [hadj]
    obtain ⟨h0, h1, h2, h3, h4, h5, _, _⟩ := hv x hx' y hy'
    show saturateOp 100 (contrastOp 100 (brightnessOp 100 (img.pix x y))) =
      img.pix x y
    rw [brightnessOp_100 _ h0 h1 h2 h3 h4 h5,
        contrastOp_100 _ h0 h1 h2 h3 h4 h5,
        saturateOp_100 _ h0 h1 h2 h3 h4 h5]

/-- C5 witness: the identity at defaults instantiated at a concrete valid
1×1 bitmap. -/
theorem C5_identity_at_defaults_witness :
    bmpTest1x1.Valid ∧
    Bitmap.eqv (applyFilters ⟨100, 100, 100, 0⟩ 0 false false bmpTest1x1)
      bmpTest1x1 :=
  ⟨by decide, C5_identity_at_defaults bmpTest1x1 (by decide)⟩

/-- C6: the code's horizontal flip (rotation 0, scale(-1,1)) applied twice
returns the original bitmap, and likewise the vertical flip
(rotation 0, scale(1,-1)): each flip is an involution. -/
theorem C6_flip_involution (img : Bitmap) :
    Bitmap.eqv (codeTransform (codeTransform img 0 true false) 0 true false)
      img ∧
    Bitmap.eqv (codeTransform (codeTransform img 0 false true) 0 false true)
      img := by
  constructor <;> refine ⟨rfl, rfl, ?_⟩ <;> intro x hx y hy <;>
    simp only [codeTransform] at hx hy
  · rw [ct_pix_rot0 (codeTransform img 0 true false) true false x y hx hy]
    simp only [if_pos rfl, if_neg Bool.false_ne_true, Bool.false_eq_true,
      if_false, if_true]
    have hw : (codeTransform img 0 true false).width = img.width := rfl
    rw [hw]
    have hx2 : img.width - 1 - x < img.width := by omega
    rw [ct_pix_rot0 img true false _ y hx2 hy]
    simp only [if_true, if_neg Bool.false_ne_true, Bool.false_eq_true,
      if_false]
    congr 1
    omega
  · rw [ct_pix_rot0 (codeTransform img 0 false true) false true x y hx hy]
    simp only [if_pos rfl, if_neg Bool.false_ne_true, Bool.false_eq_true,
      if_false, if_true]
    have hh : (codeTransform img 0 false true).height = img.height := rfl
    rw [hh]
    have hy2 : img.height - 1 - y < img.height := by omega
    rw [ct_pix_rot0 img false true x _ hx hy2]
    simp only [if_true, if_neg Bool.false_ne_true, Bool.false_eq_true,
      if_false]
    congr 1
    omega

/-- C7: from the initial state, after any sequence of user events the
rotation is one of 0°, 90°, 180°, 270°; and each rotate event advances the
rotation by +90° modulo 360° (`setRotation(r => (r + 90) % 360)`,
App.tsx line 138). -/
theorem C7_rotation_invariant :
    (∀ acts : List UserAction,
      (run acts).rotation = 0 ∨ (run acts).rotation = 90 ∨
      (run acts).rotation = 180 ∨ (run acts).rotation = 270) ∧
    (∀ acts : List UserAction,
      (run (acts ++ [UserAction.rotate])).rotation =
        ((run acts).rotation + 90) % 360) := by
  constructor
  · intro acts
    exact run_rot_ok_aux acts initialState (Or.inl rfl)
  · intro acts
    unfold run
    rw [List.foldl_append, List.foldl_cons, List.foldl_nil]
    simp only [step, renderCanvas_rotation]

/-- C8: after any sequence of user events, the canvas holds exactly the
pipeline output computed from the uploaded source bitmap and the current
parameters — `applyFilters` always redraws from `image`, the original
upload (App.tsx lines 37-38, 57-59); no intermediate bitmap is fed back. -/
theorem C8_output_from_source (acts : List UserAction) (img : Bitmap)
    (h : (run acts).image = some img) :
    (run acts).canvas = some (applyFilters (run acts).adjustments
      (run acts).rotation (run acts).flip.horizontal
      (run acts).flip.vertical img) := by
  have base : ∀ i : Bitmap, initialState.image = some i →
      initialState.canvas = some (applyFilters initialState.adjustments
        initialState.rotation initialState.flip.horizontal
        initialState.flip.vertical i) := by
    intro i hi
    exact Option.noConfusion hi
  exact run_inv_aux acts initialState base img h

/-- C8 witness: one upload event; the canvas then holds the pipeline output
of the uploaded bitmap at the default parameters. -/
theorem C8_output_from_source_witness :
    (run [UserAction.upload bmpTest1x1]).image = some bmpTest1x1 ∧
    (run [UserAction.upload bmpTest1x1]).canvas =
      some (applyFilters (run [UserAction.upload bmpTest1x1]).adjustments
        (run [UserAction.upload bmpTest1x1]).rotation
        (run [UserAction.upload bmpTest1x1]).flip.horizontal
        (run [UserAction.upload bmpTest1x1]).flip.vertical bmpTest1x1) :=
  ⟨rfl, C8_output_from_source [UserAction.upload bmpTest1x1] bmpTest1x1 rfl⟩

/-- C9: brightness 200 on a (200,200,200) pixel scales every color channel
to 400 and clamps it at 255 — no overflow past the 8-bit maximum, for any
alpha value. -/
theorem C9_brightness_clamp (alpha : ℤ) :
    brightnessOp 200 ⟨200, 200, 200, alpha⟩ = ⟨255, 255, 255, alpha⟩ := by
  simp only [brightnessOp, clampCh, Pixel.mk.injEq]
  refine ⟨by decide, by decide, by decide, trivial⟩

/-- C10: `handleAdjustment` (App.tsx lines 71-73) spreads the previous
record and replaces exactly the named field: updating any one of the four
adjustment parameters leaves the other three unchanged. -/
theorem C10_single_slider_frame (adj : Adjustments) (v : ℤ) :
    ((updateAdjustments adj .brightness v).contrast = adj.contrast ∧
     (updateAdjustments adj .brightness v).saturation = adj.saturation ∧
     (updateAdjustments adj .brightness v).blur = adj.blur) ∧
    ((updateAdjustments adj .contrast v).brightness = adj.brightness ∧
     (updateAdjustments adj .contrast v).saturation = adj.saturation ∧
     (updateAdjustments adj .contrast v).blur = adj.blur) ∧
    ((updateAdjustments adj .saturation v).brightness = adj.brightness ∧
     (updateAdjustments adj .saturation v).contrast = adj.contrast ∧
     (updateAdjustments adj .saturation v).blur = adj.blur) ∧
    ((updateAdjustments adj .blur v).brightness = adj.brightness ∧
     (updateAdjustments adj .blur v).contrast = adj.contrast ∧
     (updateAdjustments adj .blur v).saturation = adj.saturation) :=
  ⟨⟨rfl, rfl, rfl⟩, ⟨rfl, rfl, rfl⟩, ⟨rfl, rfl, rfl⟩, ⟨rfl, rfl, rfl⟩⟩
